import Mathlib

/-!
Verification of the MotionMetrics multi-camera synchronization core
(`src/camera_synchronization.cpp`) via a shallow embedding.

Conventions of the embedding:
* `cv::Mat` is abstracted as a structure carrying its dimensions
  (`rows`, `cols`, `channels`) and an opaque content descriptor `data : Nat`
  (pixel contents are not modelled beyond identity; `data = 0` stands for an
  all-zero buffer as produced by `Mat::zeros`).
* `uint64_t` timestamps are `Nat`, with wrap-around made explicit via `% 2^64`
  where the code performs unsigned arithmetic.
* The thread-safe `SafeQueue` is modelled by its protected state, a FIFO list
  (`std::queue` pushes at the back, pops at the front); its mutex serializes
  operations, so the interleaved executions are exactly the sequential
  operation sequences modelled here.
* Loops are modelled as fuel-indexed recursions over the sequence of values
  they observe (capture results, key presses, stop-flag reads).
-/

/-- Abstraction of `cv::Mat`: dimensions plus an opaque content id. -/
structure Mat where
  rows : Nat
  cols : Nat
  channels : Nat
  data : Nat
deriving DecidableEq

instance : Inhabited Mat := ⟨⟨0, 0, 0, 0⟩⟩

/-- `cv::resize(frame, frameCopy, Size(w, h))`: the result has `h` rows and
`w` columns, the channel count and (abstracted) content are carried over. -/
def resize (m : Mat) (width height : Nat) : Mat :=
  { m with rows := height, cols := width }

/-- `Mat::zeros(480, 640, CV_8UC3)`: an all-zero 3-channel 480x640 buffer
(`data = 0` encodes the all-zero contents). -/
def matZeros480x640 : Mat := ⟨480, 640, 3, 0⟩

/-- `struct FrameData` from the source: a frame, a `uint64_t` timestamp and a
camera index. -/
structure FrameData where
  frame : Mat
  timestamp : Nat
  cameraIndex : Int
deriving DecidableEq

/-- The default constructor `FrameData()` sets `timestamp = 0`,
`cameraIndex = -1` and an empty `Mat`. -/
instance : Inhabited FrameData := ⟨⟨default, 0, -1⟩⟩

/-- The protected state of `class SafeQueue`: the underlying
`std::queue<FrameData>` as a list, oldest element first. -/
abbrev SafeQueue := List FrameData

/-- `SafeQueue::push`: enqueue at the tail. Always succeeds. -/
def SafeQueue.push (q : SafeQueue) (item : FrameData) : SafeQueue :=
  q ++ [item]

/-- `SafeQueue::pop`: if the queue is empty return `false` immediately
(modelled as `none`); otherwise move the front element out and return `true`
(modelled as `some (front, rest)`). -/
def SafeQueue.pop : SafeQueue → Option (FrameData × SafeQueue)
  | [] => none
  | x :: xs => some (x, xs)

/-- One externally observable operation on a `SafeQueue`. -/
inductive QueueOp
  | pushOp (fd : FrameData)
  | popOp
deriving DecidableEq

/-- Run a sequence of queue operations; return the final queue state and the
list of items returned by the successful pops, in order. -/
def runQueueOps : List QueueOp → SafeQueue → SafeQueue × List FrameData
  | [], q => (q, [])
  | QueueOp.pushOp fd :: ops, q => runQueueOps ops (SafeQueue.push q fd)
  | QueueOp.popOp :: ops, q =>
    match SafeQueue.pop q with
    | none => runQueueOps ops q
    | some (fd, q') =>
      let r := runQueueOps ops q'
      (r.1, fd :: r.2)

/-- The items pushed by a sequence of operations, in order. -/
def pushedItems : List QueueOp → List FrameData
  | [] => []
  | QueueOp.pushOp fd :: ops => fd :: pushedItems ops
  | QueueOp.popOp :: ops => pushedItems ops

/-- `static_cast<int64_t>` applied to a `uint64_t` value: two's-complement
reinterpretation of the low 64 bits. -/
def int64OfUInt64 (x : Nat) : Int :=
  if x % 2 ^ 64 < 2 ^ 63 then ((x % 2 ^ 64 : Nat) : Int)
  else ((x % 2 ^ 64 : Nat) : Int) - 2 ^ 64

/-- Unsigned 64-bit subtraction `a - b` as performed on `uint64_t`. -/
def uint64Sub (a b : Nat) : Nat :=
  (a % 2 ^ 64 + (2 ^ 64 - b % 2 ^ 64)) % 2 ^ 64

/-- The diagnostic loop of `DisplayFrames` (guarded by `numCameras > 1`):
for each camera `i >= 1` compute
`int64_t diff = static_cast<int64_t>(latestTimestamps[i] - latestTimestamps[0])`. -/
def timestampDiffs : List Nat → List Int
  | [] => []
  | t0 :: rest => rest.map fun ti => int64OfUInt64 (uint64Sub ti t0)

/-- The frame-collection loop of `DisplayFrames` (lines 236-249): pop each
queue in index order; on the first failed pop, break with
`allFramesReceived = false`, leaving the later queues untouched. Returns the
items popped in this attempt (in index order), the `allFramesReceived` flag,
and the updated queue states. -/
def collectFrames : List SafeQueue → List FrameData × Bool × List SafeQueue
  | [] => ([], true, [])
  | q :: qs =>
    match SafeQueue.pop q with
    | none => ([], false, q :: qs)
    | some (fd, q') =>
      let r := collectFrames qs
      (fd :: r.1, r.2.1, q' :: r.2.2)

/-- Observable action of one synchronizer cycle attempt: either the 1 ms sleep
of an abandoned attempt, or a rendered composite carrying the collected
FrameSet and the attached timestamp-difference diagnostics. -/
inductive SyncEvent
  | slept
  | rendered (fs : List FrameData) (diffs : List Int)
deriving DecidableEq

/-- The `while (isRunning)` loop of `DisplayFrames`, fuel-indexed. `keys` is
the stream of `waitKey` results (consumed once per rendered composite; `none`
means no key). Returns the events, the final queue states and the final value
of the stop flag. A `false` flag at the loop condition exits immediately. -/
def DisplayFramesLoop :
    Nat → List (Option Char) → Bool → List SafeQueue →
      List SyncEvent × List SafeQueue × Bool
  | 0, _, running, qs => ([], qs, running)
  | _ + 1, _, false, qs => ([], qs, false)
  | fuel + 1, keys, true, qs =>
    let c := collectFrames qs
    if c.2.1 then
      let diffs := timestampDiffs (c.1.map FrameData.timestamp)
      let key := keys.headD none
      let running' := if key = some 'q' ∨ key = some 'Q' then false else true
      let r := DisplayFramesLoop fuel keys.tail running' c.2.2
      (SyncEvent.rendered c.1 diffs :: r.1, r.2.1, r.2.2)
    else
      let r := DisplayFramesLoop fuel keys true c.2.2
      (SyncEvent.slept :: r.1, r.2.1, r.2.2)

/-- All items appearing in rendered FrameSets of an event trace. -/
def renderedItems : List SyncEvent → List FrameData
  | [] => []
  | SyncEvent.slept :: evs => renderedItems evs
  | SyncEvent.rendered fs _ :: evs => fs ++ renderedItems evs

/-- Concrete frame items used by witnesses and scenarios. -/
def fdW : FrameData := ⟨⟨480, 640, 3, 1⟩, 100, 0⟩

/-- A second concrete frame item, distinct from `fdW`. -/
def fdW2 : FrameData := ⟨⟨480, 640, 3, 2⟩, 150, 1⟩

/-- Outcome of the driver interaction of one `AcquireImages` iteration:
a thrown `Spinnaker::Exception` (this is also how `GetNextImage(1000)`
reports a timeout), an image with `IsIncomplete()` true, or a complete
capture with its `GetTimeStamp()` value. -/
inductive CaptureResult
  | exn
  | incomplete (img : Mat)
  | complete (img : Mat) (timestamp : Nat)
deriving DecidableEq

/-- Observable action of one producer iteration: the `cout` in the
`catch` block, or a push to the camera's queue. -/
inductive ProducerEvent
  | loggedError
  | pushed (fd : FrameData)
deriving DecidableEq

/-- One iteration of the `AcquireImages` body (lines 172-215): on an
exception, log and continue; on an incomplete image, release it and continue
without logging; on a complete capture, build the BGR8 `Mat` (`CV_8UC3`,
hence 3 channels), resize it to 640x480, stamp the timestamp text onto it
(a pixel-level edit, invisible in this abstraction), and push the
`FrameData` onto the camera's queue. -/
def AcquireImagesIteration (cameraIndex : Int) (res : CaptureResult)
    (q : SafeQueue) : SafeQueue × List ProducerEvent :=
  match res with
  | CaptureResult.exn => (q, [ProducerEvent.loggedError])
  | CaptureResult.incomplete _ => (q, [])
  | CaptureResult.complete img ts =>
    let frame : Mat := { img with channels := 3 }
    let frameCopy := resize frame 640 480
    let fd : FrameData := ⟨frameCopy, ts, cameraIndex⟩
    (SafeQueue.push q fd, [ProducerEvent.pushed fd])

/-- The `while (isRunning)` loop of `AcquireImages`, fuel-indexed by the list
of (stop-flag value observed at the loop condition, capture outcome) pairs.
A `false` flag observed at the condition exits with no further iteration. -/
def AcquireImagesLoop (cameraIndex : Int) :
    List (Bool × CaptureResult) → SafeQueue → SafeQueue × List ProducerEvent
  | [], q => (q, [])
  | (running, res) :: rest, q =>
    if running then
      let s := AcquireImagesIteration cameraIndex res q
      let r := AcquireImagesLoop cameraIndex rest s.1
      (r.1, s.2 ++ r.2)
    else (q, [])

/-- `int gridCols = ceil(sqrt(numCameras))` (line 225), in exact integer
form: `Nat.sqrt` is the floor square root, so the ceiling is it unchanged on
perfect squares and one more otherwise. -/
def gridCols (n : Nat) : Nat :=
  if Nat.sqrt n * Nat.sqrt n = n then Nat.sqrt n else Nat.sqrt n + 1

/-- `int gridRows = ceil((float)numCameras / gridCols)` (line 226), in exact
integer form (ceiling division). -/
def gridRows (n : Nat) : Nat := (n + gridCols n - 1) / gridCols n

/-- The cell placed at row-major index `idx` of the composite (lines
280-288): the camera frame when `idx < numCameras`, else
`Mat::zeros(480, 640, CV_8UC3)`. -/
def gridCell (frames : List Mat) (n idx : Nat) : Mat :=
  if idx < n then frames.getD idx matZeros480x640 else matZeros480x640

/-- One row of the composite grid (lines 278-289): cells `j = 0 .. gridCols-1`
at row-major indices `i * gridCols + j`. -/
def gridRowCells (frames : List Mat) (n i : Nat) : List Mat :=
  (List.range (gridCols n)).map fun j => gridCell frames n (i * gridCols n + j)

/-- The full composite grid of `DisplayFrames` (lines 273-295), as the list of
its rows before `hconcat`/`vconcat` stitch them into one image. -/
def displayGrid (frames : List Mat) (n : Nat) : List (List Mat) :=
  (List.range (gridRows n)).map fun i => gridRowCells frames n i

/-- Initial value of the global stop flag: `atomic<bool> isRunning{ true }`
(line 112), initialized at program start, before any thread or loop exists. -/
def isRunningInit : Bool := true

/-- Value of `isRunning` after a given number of executed writes: the only
assignment to `isRunning` in the whole program is `isRunning = false;`
(line 303 of `DisplayFrames`), so the flag keeps its initial value until the
first write executes and is `false` from then on; no statement can reset it. -/
def isRunningAfter (writes : Nat) : Bool := isRunningInit && writes == 0

/-- Outcome of `ConfigureTrigger` for one camera: full success, the
`TriggerMode` node not readable (early `return -1`, printing "Aborting...",
without throwing), or a `Spinnaker::Exception` raised inside its `try` and
caught inside the function (also `return -1`). In every case the function
returns normally to its caller — no failure escapes it as an exception. -/
inductive ConfigOutcome
  | ok
  | notReadable
  | exn
deriving DecidableEq

/-- `int ConfigureTrigger(INodeMap&)` (lines 116-162): returns 0 on success
and -1 on either failure path. -/
def ConfigureTrigger : ConfigOutcome → Int
  | ConfigOutcome.ok => 0
  | ConfigOutcome.notReadable => -1
  | ConfigOutcome.exn => -1

/-- Environment behaviour of one camera during setup: whether `Init()`,
the `AcquisitionMode` configuration, or `BeginAcquisition()` throws a
`Spinnaker::Exception`, and how `ConfigureTrigger` turns out. -/
structure CameraEnv where
  initThrows : Bool
  config : ConfigOutcome
  acqModeThrows : Bool
  beginThrows : Bool
deriving DecidableEq

/-- Observable lifecycle events of `RunMultipleCameras` and `main`. -/
inductive RunEvent
  | queueCreated (i : Nat)
  | camInited (i : Nat)
  | beganAcquisition (i : Nat)
  | startedProducer (i : Nat)
  | startedDisplay
  | endedAcquisition (i : Nat)
  | deinited (i : Nat)
  | camListCleared
  | releasedInstance
deriving DecidableEq

/-- The per-camera setup loop of `RunMultipleCameras` (lines 323-338):
`Init()`, `result |= ConfigureTrigger(...)`, `AcquisitionMode` setup,
`BeginAcquisition()`. Returns whether a `Spinnaker::Exception` escaped to the
enclosing `catch` (which then sets `result = -1`), the resulting `result`
value, and the events. A non-throwing `ConfigureTrigger` failure only ORs -1
into `result`; the loop continues. -/
def setupLoop : Nat → List CameraEnv → Int → Bool × Int × List RunEvent
  | _, [], result => (false, result, [])
  | i, env :: rest, result =>
    if env.initThrows then (true, -1, [])
    else
      let r := Int.lor result (ConfigureTrigger env.config)
      if env.acqModeThrows then (true, -1, [RunEvent.camInited i])
      else if env.beginThrows then (true, -1, [RunEvent.camInited i])
      else
        let s := setupLoop (i + 1) rest r
        (s.1, s.2.1, RunEvent.camInited i :: RunEvent.beganAcquisition i :: s.2.2)

/-- `int RunMultipleCameras(CameraList&)` (lines 308-373): create one queue
per camera, run the setup loop; if an exception escaped, the `catch` logs and
returns -1 with nothing further (in particular no `EndAcquisition`/`DeInit`
for the cameras already set up, since the cleanup loop sits inside the same
`try`); otherwise start one producer thread per camera and the display
thread, join them, then end acquisition and deinit each camera in forward
camera order. -/
def RunMultipleCameras (envs : List CameraEnv) : Int × List RunEvent :=
  let n := envs.length
  let queueEvs := (List.range n).map RunEvent.queueCreated
  let s := setupLoop 0 envs 0
  if s.1 then (s.2.1, queueEvs ++ s.2.2)
  else
    (s.2.1,
      queueEvs ++ s.2.2 ++ (List.range n).map RunEvent.startedProducer ++
        [RunEvent.startedDisplay] ++
        ((List.range n).map fun i =>
          [RunEvent.endedAcquisition i, RunEvent.deinited i]).flatten)

/-- `int main(...)` (lines 375-404): if zero cameras are detected, clear the
camera list, release the system instance and return -1 without entering
`RunMultipleCameras`; otherwise run it and then clear/release. (Named
`mainProgram` because Lean reserves `main` for executable entry points.) -/
def mainProgram (envs : List CameraEnv) : Int × List RunEvent :=
  if envs.length = 0 then
    (-1, [RunEvent.camListCleared, RunEvent.releasedInstance])
  else
    let r := RunMultipleCameras envs
    (r.1, r.2 ++ [RunEvent.camListCleared, RunEvent.releasedInstance])

/-- Events that start a thread. -/
def isThreadStart : RunEvent → Bool
  | RunEvent.startedProducer _ => true
  | RunEvent.startedDisplay => true
  | _ => false

/-- Events that release a per-camera resource. -/
def isRelease : RunEvent → Bool
  | RunEvent.endedAcquisition _ => true
  | RunEvent.deinited _ => true
  | _ => false

/-- A camera whose `ConfigureTrigger` fails irrecoverably (TriggerMode node
not readable) without any exception being thrown. -/
def envNotReadable : CameraEnv := ⟨false, ConfigOutcome.notReadable, false, false⟩

/-- The §8 timing scenario: source 0 produces timestamps 100, 200, 300 ns and
source 1 produces 150, 250, 350 ns (all frames distinct). -/
def scenarioQueues : List SafeQueue :=
  [[⟨⟨480, 640, 3, 10⟩, 100, 0⟩, ⟨⟨480, 640, 3, 11⟩, 200, 0⟩, ⟨⟨480, 640, 3, 12⟩, 300, 0⟩],
   [⟨⟨480, 640, 3, 20⟩, 150, 1⟩, ⟨⟨480, 640, 3, 21⟩, 250, 1⟩, ⟨⟨480, 640, 3, 22⟩, 350, 1⟩]]

/-- The diagnostics attached to a synchronizer event (empty for a sleep). -/
def eventDiffs : SyncEvent → List Int
  | SyncEvent.slept => []
  | SyncEvent.rendered _ ds => ds

theorem runQueueOps_eq (ops : List QueueOp) (q : SafeQueue) :
    (runQueueOps ops q).2 ++ (runQueueOps ops q).1 = q ++ pushedItems ops := by
  induction ops generalizing q with
  | nil => simp [runQueueOps, pushedItems]
  | cons op ops ih =>
    cases op with
    | pushOp fd =>
      simp only [runQueueOps, pushedItems]
      rw [ih]
      simp [SafeQueue.push]
    | popOp =>
      cases q with
      | nil => simpa [runQueueOps, pushedItems, SafeQueue.pop] using ih []
      | cons x xs =>
        simp only [runQueueOps, pushedItems, SafeQueue.pop]
        rw [List.cons_append, ih]
        rfl

theorem runQueueOps_pushOnly (q : SafeQueue) (fds : List FrameData) :
    (runQueueOps (fds.map QueueOp.pushOp) q).1 = q ++ fds := by
  induction fds generalizing q with
  | nil => simp [runQueueOps]
  | cons fd fds ih =>
    simp only [List.map_cons, runQueueOps]
    rw [ih]
    simp [SafeQueue.push]

/-- Claim C3: `SafeQueue` is strictly FIFO — for any sequence of pushes and
pops the successfully popped items followed by the remaining queue contents
equal the initial contents followed by the pushed items in push order (so pop
always returns the oldest unpopped item and nothing is dropped); each push
grows the depth by one, each successful pop shrinks it by one, and a queue
receiving only pushes grows monotonically. -/
theorem safeQueue_fifo_no_loss :
    (∀ q fd, (SafeQueue.push q fd).length = q.length + 1) ∧
    (∀ (q q' : SafeQueue) (fd : FrameData),
      SafeQueue.pop q = some (fd, q') → q.length = q'.length + 1) ∧
    (∀ fd (q : SafeQueue), SafeQueue.pop (fd :: q) = some (fd, q)) ∧
    (∀ ops q, (runQueueOps ops q).2 ++ (runQueueOps ops q).1 = q ++ pushedItems ops) ∧
    (∀ (q : SafeQueue) (fds : List FrameData),
      (runQueueOps (fds.map QueueOp.pushOp) q).1.length = q.length + fds.length) := by
  refine ⟨fun q fd => by simp [SafeQueue.push], ?_, fun fd q => rfl,
    runQueueOps_eq, fun (q : SafeQueue) (fds : List FrameData) => by
      rw [runQueueOps_pushOnly]; simp⟩
  intro q q' fd h
  cases q with
  | nil => simp [SafeQueue.pop] at h
  | cons x xs =>
    simp only [SafeQueue.pop, Option.some.injEq, Prod.mk.injEq] at h
    simp [← h.2]

/-- Claim C3 witness: the pop-shrinks-depth conjunct instantiated on the
concrete singleton queue `[default]`. -/
theorem safeQueue_fifo_no_loss_witness :
    ([default] : SafeQueue).length = ([] : SafeQueue).length + 1 :=
  safeQueue_fifo_no_loss.2.1 [default] [] default rfl

/-- Claim C6: `SafeQueue::pop` never blocks — on an empty queue it returns the
empty result immediately, and on a non-empty queue it removes the head and
transfers it to the caller. (The function is total on every queue state, which
is the shallow-embedding form of "returns without waiting".) -/
theorem safeQueue_pop_nonblocking :
    SafeQueue.pop [] = none ∧
    ∀ fd (q : SafeQueue), SafeQueue.pop (fd :: q) = some (fd, q) :=
  ⟨rfl, fun _ _ => rfl⟩

theorem collectFrames_count (qs : List SafeQueue) (d : FrameData) :
    (collectFrames qs).1.count d + (collectFrames qs).2.2.flatten.count d
      = qs.flatten.count d := by
  induction qs with
  | nil => simp [collectFrames]
  | cons q qs ih =>
    cases q with
    | nil => simp [collectFrames, SafeQueue.pop]
    | cons f t =>
      simp only [collectFrames, SafeQueue.pop, List.flatten_cons, List.count_append,
        List.count_cons]
      omega

theorem displayFramesLoop_count (fuel : Nat) (keys : List (Option Char))
    (running : Bool) (qs : List SafeQueue) (d : FrameData) :
    (renderedItems (DisplayFramesLoop fuel keys running qs).1).count d +
        (DisplayFramesLoop fuel keys running qs).2.1.flatten.count d
      ≤ qs.flatten.count d := by
  induction fuel generalizing keys running qs with
  | zero => simp [DisplayFramesLoop, renderedItems]
  | succ fuel ih =>
    cases running with
    | false => simp [DisplayFramesLoop, renderedItems]
    | true =>
      have hq := collectFrames_count qs d
      simp only [DisplayFramesLoop]
      split
      · simp only [renderedItems, List.count_append]
        have := ih keys.tail
          (if keys.headD none = some 'q' ∨ keys.headD none = some 'Q' then false else true)
          (collectFrames qs).2.2
        omega
      · simp only [renderedItems]
        have := ih keys true (collectFrames qs).2.2
        omega

theorem renderedItems_mem {evs : List SyncEvent} {fs : List FrameData}
    {ds : List Int} (h : SyncEvent.rendered fs ds ∈ evs) :
    ∀ x ∈ fs, x ∈ renderedItems evs := by
  induction evs with
  | nil => simp at h
  | cons ev evs ih =>
    intro x hx
    cases ev with
    | slept =>
      rcases List.mem_cons.mp h with h' | h'
      · exact absurd h' (by simp)
      · exact ih h' x hx
    | rendered fs' ds' =>
      rcases List.mem_cons.mp h with h' | h'
      · cases h'
        exact List.mem_append.mpr (Or.inl hx)
      · exact List.mem_append.mpr (Or.inr (ih h' x hx))

theorem collectFrames_success (qs : List SafeQueue)
    (h : (collectFrames qs).2.1 = true) :
    (collectFrames qs).1.length = qs.length ∧
    (collectFrames qs).2.2.length = qs.length ∧
    ∀ i, i < qs.length →
      qs.getD i [] =
        (collectFrames qs).1.getD i default :: (collectFrames qs).2.2.getD i [] := by
  induction qs with
  | nil => simp [collectFrames]
  | cons q qs ih =>
    cases q with
    | nil => simp [collectFrames, SafeQueue.pop] at h
    | cons f t =>
      simp only [collectFrames, SafeQueue.pop] at h ⊢
      obtain ⟨h1, h2, h3⟩ := ih h
      refine ⟨by simp [h1], by simp [h2], ?_⟩
      intro i hi
      cases i with
      | zero => simp
      | succ i =>
        simpa using h3 i (by simpa using hi)

theorem collectFrames_fail (A B : List SafeQueue) (hA : ∀ q ∈ A, q ≠ []) :
    collectFrames (A ++ [] :: B) =
      (A.map List.headI, false, A.map List.tail ++ [] :: B) := by
  induction A with
  | nil => simp [collectFrames, SafeQueue.pop]
  | cons q A ih =>
    cases q with
    | nil => exact absurd rfl (hA [] (List.mem_cons_self _ _))
    | cons f t =>
      have ih' := ih (fun q hq => hA q (List.mem_cons_of_mem _ hq))
      simp only [List.cons_append, collectFrames, SafeQueue.pop, List.map_cons,
        List.append_eq] at ih' ⊢
      rw [ih']
      simp

/-- Claim C1: if during a synchronizer cycle attempt the pop on some queue
fails, the attempt is abandoned immediately — the queues before the first
empty one each lose exactly their head (the popped items, which become the
discarded items), the empty queue and all later queues are untouched (no
further pops), no composite is rendered for the attempt (the emitted event is
the 1 ms sleep, after which the loop retries on the updated queues), and —
provided all enqueued items are distinct — a discarded item never appears in
any FrameSet rendered by the rest of the run. -/
theorem synchronizer_abandon_discards
    (A B : List SafeQueue) (d : FrameData) (fuel : Nat) (keys : List (Option Char))
    (hA : ∀ q ∈ A, q ≠ [])
    (hnd : ((A ++ [] :: B).flatten).Nodup)
    (hd : d ∈ A.map List.headI) :
    collectFrames (A ++ [] :: B) =
      (A.map List.headI, false, A.map List.tail ++ [] :: B) ∧
    DisplayFramesLoop (fuel + 1) keys true (A ++ [] :: B) =
      (SyncEvent.slept ::
          (DisplayFramesLoop fuel keys true (A.map List.tail ++ [] :: B)).1,
        (DisplayFramesLoop fuel keys true (A.map List.tail ++ [] :: B)).2.1,
        (DisplayFramesLoop fuel keys true (A.map List.tail ++ [] :: B)).2.2) ∧
    ∀ fs ds,
      SyncEvent.rendered fs ds ∈
          (DisplayFramesLoop fuel keys true (A.map List.tail ++ [] :: B)).1 →
        d ∉ fs := by
  have hc := collectFrames_fail A B hA
  refine ⟨hc, ?_, ?_⟩
  · simp only [DisplayFramesLoop]
    rw [hc]
    simp
  · have hcount := collectFrames_count (A ++ [] :: B) d
    rw [hc] at hcount
    dsimp only at hcount
    have hone : ((A ++ [] :: B).flatten).count d ≤ 1 :=
      List.nodup_iff_count_le_one.mp hnd d
    have hpos : 0 < (A.map List.headI).count d := List.count_pos_iff.mpr hd
    have hzero : ((A.map List.tail ++ [] :: B).flatten).count d = 0 := by omega
    have hloop := displayFramesLoop_count fuel keys true (A.map List.tail ++ [] :: B) d
    rw [hzero] at hloop
    have hren :
        (renderedItems (DisplayFramesLoop fuel keys true
          (A.map List.tail ++ [] :: B)).1).count d = 0 := by omega
    intro fs ds hmem hdfs
    rw [List.count_eq_zero] at hren
    exact hren (renderedItems_mem hmem d hdfs)

/-- Claim C1 witness: a two-queue attempt where queue 1 is empty consumes and
discards the head of queue 0 and leaves queue 1 untouched. -/
theorem synchronizer_abandon_discards_witness :
    collectFrames ([[fdW]] ++ [] :: []) =
      ([[fdW]].map List.headI, false, [[fdW]].map List.tail ++ [] :: []) :=
  (synchronizer_abandon_discards [[fdW]] [] fdW 0 []
    (by decide) (by decide) (by decide)).1

/-- Claim C2: when a synchronizer cycle attempt succeeds, the FrameSet
consists of exactly one item popped from each of the N queues in that attempt
(namely each queue's head, which is removed), the rendered composite carries
exactly those items, and — provided all enqueued items are distinct — no item
ever appears in two rendered FrameSets of a run (items are consumed by their
unique pop, never peeked at without removal). -/
theorem synchronizer_complete_cycle
    (qs : List SafeQueue) (fuel : Nat) (keys : List (Option Char))
    (hok : (collectFrames qs).2.1 = true)
    (hnd : qs.flatten.Nodup) :
    (collectFrames qs).1.length = qs.length ∧
    (collectFrames qs).2.2.length = qs.length ∧
    (∀ i, i < qs.length →
      qs.getD i [] =
        (collectFrames qs).1.getD i default :: (collectFrames qs).2.2.getD i []) ∧
    (DisplayFramesLoop (fuel + 1) keys true qs).1.head? =
      some (SyncEvent.rendered (collectFrames qs).1
        (timestampDiffs ((collectFrames qs).1.map FrameData.timestamp))) ∧
    (renderedItems (DisplayFramesLoop (fuel + 1) keys true qs).1).Nodup := by
  obtain ⟨h1, h2, h3⟩ := collectFrames_success qs hok
  refine ⟨h1, h2, h3, ?_, ?_⟩
  · simp only [DisplayFramesLoop]
    rw [if_pos hok]
    rfl
  · rw [List.nodup_iff_count_le_one]
    intro d
    have := displayFramesLoop_count (fuel + 1) keys true qs d
    have := List.nodup_iff_count_le_one.mp hnd d
    omega

/-- Claim C2 witness: on two singleton queues with distinct items the
completed cycle pops exactly one item per queue. -/
theorem synchronizer_complete_cycle_witness :
    (collectFrames [[fdW], [fdW2]]).1.length = [[fdW], [fdW2]].length :=
  (synchronizer_complete_cycle [[fdW], [fdW2]] 0 [] (by decide) (by decide)).1

/-- Claim C8 counterexample: for an iteration whose capture is reported
incomplete, `AcquireImages` emits NO log output (the image is released and the
loop silently continues), contradicting the claim that the error is logged. -/
theorem producer_incomplete_not_logged_cex :
    (AcquireImagesIteration 2 (CaptureResult.incomplete ⟨480, 640, 3, 7⟩) []).2 = [] :=
  rfl

/-- Claim C8 (amended): on a timeout or driver exception the error is logged;
an incomplete capture is discarded silently (released, NOT logged); in all
three cases nothing is enqueued for that iteration and the loop simply
continues with the next iteration — the error is never fatal to the producer
and touches no other queue. -/
theorem producer_transient_errors (idx : Int) (q : SafeQueue) (img : Mat)
    (rest : List (Bool × CaptureResult)) :
    AcquireImagesIteration idx CaptureResult.exn q = (q, [ProducerEvent.loggedError]) ∧
    AcquireImagesIteration idx (CaptureResult.incomplete img) q = (q, []) ∧
    AcquireImagesLoop idx ((true, CaptureResult.exn) :: rest) q =
      ((AcquireImagesLoop idx rest q).1,
        ProducerEvent.loggedError :: (AcquireImagesLoop idx rest q).2) ∧
    AcquireImagesLoop idx ((true, CaptureResult.incomplete img) :: rest) q =
      AcquireImagesLoop idx rest q :=
  ⟨rfl, rfl, rfl, rfl⟩

theorem getD_range_map {α : Type} (f : Nat → α) (k i : Nat) (d : α)
    (h : i < k) : ((List.range k).map f).getD i d = f i := by
  rw [List.getD_eq_getElem?_getD, List.getElem?_map, List.getElem?_range h]
  rfl

theorem gridCols_isCeilSqrt (n : Nat) :
    n ≤ gridCols n * gridCols n ∧ ∀ c, n ≤ c * c → gridCols n ≤ c := by
  unfold gridCols
  by_cases h : Nat.sqrt n * Nat.sqrt n = n
  · rw [if_pos h]
    refine ⟨h.ge, fun c hc => ?_⟩
    by_contra hlt
    push_neg at hlt
    have h2 : c * c < Nat.sqrt n * Nat.sqrt n := Nat.mul_self_lt_mul_self hlt
    omega
  · rw [if_neg h]
    refine ⟨(Nat.lt_succ_sqrt n).le, fun c hc => ?_⟩
    by_contra hlt
    push_neg at hlt
    have hle : c ≤ Nat.sqrt n := by omega
    have h1 : n ≤ Nat.sqrt n * Nat.sqrt n :=
      le_trans hc (Nat.mul_self_le_mul_self hle)
    exact h (le_antisymm (Nat.sqrt_le n) h1)

theorem gridRows_isCeilDiv (n : Nat) (hn : 1 ≤ n) :
    n ≤ gridRows n * gridCols n ∧ ∀ r, n ≤ r * gridCols n → gridRows n ≤ r := by
  have hc : 0 < gridCols n := by
    have hcc := (gridCols_isCeilSqrt n).1
    rcases Nat.eq_zero_or_pos (gridCols n) with h0 | h0
    · rw [h0, Nat.mul_zero] at hcc
      omega
    · exact h0
  constructor
  · have h1 := Nat.div_add_mod (n + gridCols n - 1) (gridCols n)
    have h2 : (n + gridCols n - 1) % gridCols n < gridCols n :=
      Nat.mod_lt _ hc
    have h3 : gridRows n * gridCols n = gridCols n * ((n + gridCols n - 1) / gridCols n) := by
      rw [Nat.mul_comm]
      rfl
    rw [h3]
    omega
  · intro r hr
    have h1 : gridRows n ≤ (r * gridCols n + gridCols n - 1) / gridCols n :=
      Nat.div_le_div_right (by omega)
    have h2 : r * gridCols n + gridCols n - 1 = gridCols n - 1 + gridCols n * r := by
      rw [Nat.mul_comm]
      omega
    rw [h2, Nat.add_mul_div_left _ _ hc, Nat.div_eq_of_lt (by omega),
      Nat.zero_add] at h1
    exact h1

theorem sqrt_three : Nat.sqrt 3 = 1 :=
  (Nat.eq_sqrt.mpr ⟨by norm_num, by norm_num⟩).symm

theorem gridCols_three : gridCols 3 = 2 := by
  rw [gridCols, sqrt_three]
  norm_num

theorem gridRows_three : gridRows 3 = 2 := by
  rw [gridRows, gridCols_three]

/-- Claim C4: the composite uses `columns = ceil(sqrt N)` and
`rows = ceil(N / columns)` (stated by their defining least-upper-bound
properties), the grid has exactly that many rows and columns, every cell
whose row-major index is at least N holds the all-zero
`Mat::zeros(480, 640, CV_8UC3)` placeholder, whose dimensions equal those of
every frame a producer pushes (640x480, 3 channels); for N = 3 this gives
columns = 2, rows = 2 and exactly one blank cell. -/
theorem grid_layout (n : Nat) (frames : List Mat) (hn : 1 ≤ n) :
    (n ≤ gridCols n * gridCols n ∧ ∀ c, n ≤ c * c → gridCols n ≤ c) ∧
    (n ≤ gridRows n * gridCols n ∧ ∀ r, n ≤ r * gridCols n → gridRows n ≤ r) ∧
    (displayGrid frames n).length = gridRows n ∧
    (∀ row ∈ displayGrid frames n, row.length = gridCols n) ∧
    (∀ i j, i < gridRows n → j < gridCols n → n ≤ i * gridCols n + j →
      ((displayGrid frames n).getD i []).getD j matZeros480x640 = matZeros480x640) ∧
    (∀ (idx : Int) (img : Mat) (ts : Nat) (q : SafeQueue) fd,
      ProducerEvent.pushed fd ∈
          (AcquireImagesIteration idx (CaptureResult.complete img ts) q).2 →
        fd.frame.rows = matZeros480x640.rows ∧
        fd.frame.cols = matZeros480x640.cols ∧
        fd.frame.channels = matZeros480x640.channels) ∧
    (gridCols 3 = 2 ∧ gridRows 3 = 2 ∧
      ((displayGrid [⟨480, 640, 3, 1⟩, ⟨480, 640, 3, 2⟩, ⟨480, 640, 3, 3⟩] 3).flatten.count
        matZeros480x640) = 1) := by
  refine ⟨gridCols_isCeilSqrt n, gridRows_isCeilDiv n hn, ?_, ?_, ?_, ?_, ?_⟩
  · simp [displayGrid]
  · intro row hrow
    simp only [displayGrid, List.mem_map] at hrow
    obtain ⟨i, _, rfl⟩ := hrow
    simp [gridRowCells]
  · intro i j hi hj hidx
    rw [show displayGrid frames n =
        (List.range (gridRows n)).map (gridRowCells frames n) from rfl]
    rw [getD_range_map _ _ _ _ hi]
    rw [show gridRowCells frames n i =
        (List.range (gridCols n)).map (fun j => gridCell frames n (i * gridCols n + j))
      from rfl]
    rw [getD_range_map _ _ _ _ hj]
    simp [gridCell, Nat.not_lt.mpr hidx]
  · intro idx img ts q fd hmem
    simp only [AcquireImagesIteration, List.mem_singleton,
      ProducerEvent.pushed.injEq] at hmem
    subst hmem
    exact ⟨rfl, rfl, rfl⟩
  · refine ⟨gridCols_three, gridRows_three, ?_⟩
    simp only [displayGrid, gridRowCells, gridCell, gridCols_three, gridRows_three]
    decide

/-- Claim C4 witness: the layout theorem instantiated at N = 3. -/
theorem grid_layout_witness : gridCols 3 = 2 :=
  (grid_layout 3 [⟨480, 640, 3, 1⟩, ⟨480, 640, 3, 2⟩, ⟨480, 640, 3, 3⟩]
    (by decide)).2.2.2.2.2.2.1

theorem displayFramesLoop_stopped (fuel : Nat) (keys : List (Option Char))
    (qs : List SafeQueue) :
    DisplayFramesLoop fuel keys false qs = ([], qs, false) := by
  cases fuel <;> rfl

/-- Claim C7: the stop flag is created (true) before any loop iteration has
run; because the program's only write to it is `isRunning = false`, its value
transitions from running to stopped at most once and is never reset; and a
loop that observes `false` at its condition check exits at once — a producer
exits with no further iteration, the synchronizer exits returning immediately,
a stopped synchronizer run stays stopped, and a run that ends with the flag
still true never observed or produced a stop. -/
theorem stop_flag_single_transition_loops_exit :
    isRunningAfter 0 = true ∧
    (∀ n m, n ≤ m → isRunningAfter n = false → isRunningAfter m = false) ∧
    (∀ (idx : Int) res rest (q : SafeQueue),
      AcquireImagesLoop idx ((false, res) :: rest) q = (q, [])) ∧
    (∀ fuel keys qs, DisplayFramesLoop (fuel + 1) keys false qs = ([], qs, false)) ∧
    (∀ fuel keys qs, (DisplayFramesLoop fuel keys false qs).2.2 = false) ∧
    (∀ fuel keys running qs,
      (DisplayFramesLoop fuel keys running qs).2.2 = true → running = true) := by
  refine ⟨rfl, ?_, fun idx res rest q => rfl, fun fuel keys qs => rfl,
    fun fuel keys qs => by rw [displayFramesLoop_stopped], ?_⟩
  · intro n m hnm hn
    simp [isRunningAfter, isRunningInit] at hn ⊢
    omega
  · intro fuel keys running qs h
    cases running with
    | false => rw [displayFramesLoop_stopped] at h; exact h
    | true => rfl

/-- Claim C7 witness: the single-transition conjunct instantiated after one
and then two executed writes. -/
theorem stop_flag_single_transition_loops_exit_witness :
    isRunningAfter 2 = false :=
  stop_flag_single_transition_loops_exit.2.1 1 2 (by decide) (by decide)

theorem setupLoop_events (envs : List CameraEnv) :
    ∀ i res, ∀ ev ∈ (setupLoop i envs res).2.2,
      isThreadStart ev = false ∧ isRelease ev = false := by
  induction envs with
  | nil => intro i res ev h; simp [setupLoop] at h
  | cons env rest ih =>
    intro i res ev h
    simp only [setupLoop] at h
    split at h
    · simp at h
    · split at h
      · simp at h
        subst h
        exact ⟨rfl, rfl⟩
      · split at h
        · simp at h
          subst h
          exact ⟨rfl, rfl⟩
        · simp only [List.mem_cons] at h
          rcases h with rfl | h
          · exact ⟨rfl, rfl⟩
          rcases h with rfl | h
          · exact ⟨rfl, rfl⟩
          · exact ih (i + 1) _ ev h

theorem setupLoop_throw_result (envs : List CameraEnv) :
    ∀ i res, (setupLoop i envs res).1 = true → (setupLoop i envs res).2.1 = -1 := by
  induction envs with
  | nil => intro i res h; simp [setupLoop] at h
  | cons env rest ih =>
    intro i res h
    simp only [setupLoop] at h ⊢
    by_cases h1 : env.initThrows = true
    · rw [if_pos h1]
    · rw [if_neg h1] at h ⊢
      by_cases h2 : env.acqModeThrows = true
      · rw [if_pos h2]
      · rw [if_neg h2] at h ⊢
        by_cases h3 : env.beginThrows = true
        · rw [if_pos h3]
        · rw [if_neg h3] at h ⊢
          exact ih (i + 1) _ h

/-- Claim C5 counterexample: with a single camera whose setup fails
irrecoverably in `ConfigureTrigger` (it prints "Aborting..." and returns -1,
throwing nothing), `RunMultipleCameras` still starts the producer thread and
the display thread — the run is not aborted before thread start, the failure
only surfaces in the -1 return value at the end. -/
theorem setup_failure_aborts_cex :
    ConfigureTrigger envNotReadable.config = -1 ∧
    (RunMultipleCameras [envNotReadable]).1 = -1 ∧
    RunEvent.startedProducer 0 ∈ (RunMultipleCameras [envNotReadable]).2 ∧
    RunEvent.startedDisplay ∈ (RunMultipleCameras [envNotReadable]).2 := by
  have hlor : Int.lor 0 (-1) = -1 := by
    show Int.lor (Int.ofNat 0) (Int.negSucc 0) = Int.negSucc 0
    simp [Int.lor, Nat.ldiff, Nat.bitwise]
  have hsetup : setupLoop 0 [envNotReadable] 0 =
      (false, -1, [RunEvent.camInited 0, RunEvent.beganAcquisition 0]) := by
    simp [setupLoop, envNotReadable, ConfigureTrigger, hlor]
  refine ⟨rfl, ?_, ?_, ?_⟩ <;> simp [RunMultipleCameras, hsetup]

/-- Claim C5 (amended): only a thrown `Spinnaker::Exception` during setup
aborts the run — `RunMultipleCameras` then returns -1 and neither producer
nor display threads are started, but the resources acquired so far are NOT
released inside `RunMultipleCameras` (the jump to `catch` skips its cleanup
loop, so no `EndAcquisition`/`DeInit` happens on this path); a
`ConfigureTrigger` failure that returns -1 without throwing does not abort:
all threads are still started and the failure only surfaces in the final
result value. -/
theorem setup_failure_behaviour (envs : List CameraEnv) :
    ((setupLoop 0 envs 0).1 = true →
      (RunMultipleCameras envs).1 = -1 ∧
      (∀ ev ∈ (RunMultipleCameras envs).2, isThreadStart ev = false) ∧
      (∀ ev ∈ (RunMultipleCameras envs).2, isRelease ev = false)) ∧
    ((setupLoop 0 envs 0).1 = false →
      RunEvent.startedDisplay ∈ (RunMultipleCameras envs).2 ∧
      (RunMultipleCameras envs).1 = (setupLoop 0 envs 0).2.1) := by
  constructor
  · intro h
    have hres := setupLoop_throw_result envs 0 0 h
    simp only [RunMultipleCameras]
    rw [if_pos h]
    refine ⟨hres, ?_, ?_⟩ <;> intro ev hev <;>
      rcases List.mem_append.mp hev with h' | h'
    · simp only [List.mem_map] at h'
      obtain ⟨i, _, rfl⟩ := h'
      rfl
    · exact (setupLoop_events envs 0 0 ev h').1
    · simp only [List.mem_map] at h'
      obtain ⟨i, _, rfl⟩ := h'
      rfl
    · exact (setupLoop_events envs 0 0 ev h').2
  · intro h
    simp only [RunMultipleCameras]
    rw [if_neg (by simp [h])]
    exact ⟨by simp, rfl⟩

/-- Claim C5 witness: a camera whose `Init()` throws does abort the run with
result -1. -/
theorem setup_failure_behaviour_witness :
    (RunMultipleCameras [⟨true, ConfigOutcome.ok, false, false⟩]).1 = -1 :=
  ((setup_failure_behaviour [⟨true, ConfigOutcome.ok, false, false⟩]).1 (by decide)).1

/-- Claim C10: when zero cameras are detected, `main` clears the camera list,
releases the system instance and returns -1; `RunMultipleCameras` is never
entered, so no queue is created and no producer or synchronizer thread is
started. -/
theorem main_zero_cameras :
    mainProgram [] = (-1, [RunEvent.camListCleared, RunEvent.releasedInstance]) ∧
    (∀ ev ∈ (mainProgram []).2, isThreadStart ev = false) ∧
    (∀ i, RunEvent.queueCreated i ∉ (mainProgram []).2) := by
  refine ⟨rfl, ?_, ?_⟩
  · intro ev hev
    have h2 : ev = RunEvent.camListCleared ∨ ev = RunEvent.releasedInstance := by
      simpa [mainProgram] using hev
    rcases h2 with rfl | rfl <;> rfl
  · intro i h
    simp [mainProgram] at h

/-- Claim C10 witness: the no-thread-start conjunct instantiated at the
concrete `camListCleared` event. -/
theorem main_zero_cameras_witness :
    isThreadStart RunEvent.camListCleared = false :=
  main_zero_cameras.2.1 RunEvent.camListCleared (by decide)

/-- Claim C9: the diagnostic attached to source i > 0 of a completed cycle is
`static_cast<int64_t>(ts_i - ts_0)`, the unsigned 64-bit difference of that
cycle's timestamps reinterpreted as signed; in the scenario where source 0
produces 100, 200, 300 ns and source 1 produces 150, 250, 350 ns, each of the
three completed cycles carries the diagnostic 50. -/
theorem timestamp_diff_diagnostic :
    (∀ (t0 : Nat) (ts : List Nat) (i : Nat), i < ts.length →
      (timestampDiffs (t0 :: ts)).getD i 0 =
        int64OfUInt64 (uint64Sub (ts.getD i 0) t0)) ∧
    (DisplayFramesLoop 3 [] true scenarioQueues).1.map eventDiffs =
      [[50], [50], [50]] := by
  constructor
  · intro t0 ts
    induction ts with
    | nil => intro i hi; simp at hi
    | cons t rest ih =>
      intro i hi
      cases i with
      | zero => rfl
      | succ i =>
        simp only [timestampDiffs, List.map_cons, List.getD_cons_succ] at ih ⊢
        exact ih i (by simpa using hi)
  · decide

/-- Claim C9 witness: the pointwise-diagnostic conjunct instantiated at
`t0 = 100`, `ts = [150]`, `i = 0`. -/
theorem timestamp_diff_diagnostic_witness :
    (timestampDiffs (100 :: [150])).getD 0 0 =
      int64OfUInt64 (uint64Sub (List.getD [150] 0 0) 100) :=
  timestamp_diff_diagnostic.1 100 [150] 0 (by decide)
